import Mathlib

/-!
Verification of the go-boilerplate core: the database-error classifier
(`internal/sqlerr/handler.go`), the validation adapter
(`internal/validation/utils.go`), the error model (`internal/errs`),
and the generic request pipeline (`internal/handler/handler.go`).

Go strings are modelled as Lean `String`; the Go standard-library string
operations used by the code (`strings.Split`, `strings.ReplaceAll`,
`strings.Contains`, `strings.HasPrefix`, `strings.HasSuffix`,
`strings.ToUpper`, `strings.ToLower`, `strings.TrimSuffix`) are
re-implemented below by structural recursion over the character list so
that every definition evaluates inside the kernel.  The identifiers the
code manipulates (table, column and constraint names, validator tags) are
ASCII, so per-character `Char.toUpper`/`Char.toLower` coincides with Go's
Unicode case mapping on the inputs of interest.
-/

namespace GoStr

/-- Whether the first list is a prefix of the second (Boolean, structural). -/
def isPreOf : List Char → List Char → Bool
  | [], _ => true
  | _ :: _, [] => false
  | p :: ps, c :: cs => p == c && isPreOf ps cs

/-- Scan helper for substring search: does `pat` occur anywhere in the list? -/
def containsAux (pat : List Char) : List Char → Bool
  | [] => isPreOf pat []
  | c :: cs => isPreOf pat (c :: cs) || containsAux pat cs

/-- Go `strings.Contains s pat`. -/
def goContains (s pat : String) : Bool :=
  containsAux pat.data s.data

/-- Go `strings.HasPrefix s pat`. -/
def goStartsWith (s pat : String) : Bool :=
  isPreOf pat.data s.data

/-- Go `strings.HasSuffix s pat`. -/
def goEndsWith (s pat : String) : Bool :=
  isPreOf pat.data.reverse s.data.reverse

/-- Splitting around each non-overlapping left-to-right occurrence of `sep`
(Go `strings.Split` on a non-empty separator).  `fuel` is an upper bound on
the number of characters still to scan; every recursive call consumes at
least one character, so with initial fuel equal to the input length the
zero-fuel case is never reached. -/
def splitAux (sep : List Char) : Nat → List Char → List Char → List (List Char)
  | _, [], acc => [acc.reverse]
  | 0, cs, acc => [acc.reverse ++ cs]
  | fuel + 1, c :: cs, acc =>
    if isPreOf sep (c :: cs) then
      acc.reverse :: splitAux sep fuel (List.drop (sep.length - 1) cs) []
    else
      splitAux sep fuel cs (c :: acc)

/-- Go `strings.Split s sep`.  The modelled code never calls `Split` with an
empty separator; the guard only keeps the definition total. -/
def goSplitOn (s sep : String) : List String :=
  if sep.data = [] then [s]
  else (splitAux sep.data s.data.length s.data []).map fun l => String.mk l

/-- Go `strings.Join xs sep`. -/
def goJoin (sep : String) : List String → String
  | [] => ""
  | [x] => x
  | x :: xs => x ++ sep ++ goJoin sep xs

/-- Go `strings.ReplaceAll s old new`, which replaces the non-overlapping
left-to-right occurrences of `old` — exactly `Join(Split(s, old), new)`.
The modelled code never calls it with an empty `old`. -/
def goReplaceAll (s old new : String) : String :=
  if old = "" then s
  else goJoin new (goSplitOn s old)

/-- Go `strings.ToUpper` restricted to ASCII case mapping. -/
def goToUpper (s : String) : String :=
  String.mk (s.data.map Char.toUpper)

/-- Go `strings.ToLower` restricted to ASCII case mapping. -/
def goToLower (s : String) : String :=
  String.mk (s.data.map Char.toLower)

/-- Drop the final character (Go slicing `s[:len(s)-1]` when the final
character is a one-byte rune, as in the singularization code where it is
a literal `'s'`/`'S'`). -/
def goDropLast1 (s : String) : String :=
  String.mk s.data.dropLast

/-- Drop the last `n` characters (Go `strings.TrimSuffix` once the suffix,
made of `n` one-byte runes, is known to be present). -/
def goDropRight (s : String) (n : Nat) : String :=
  String.mk (s.data.take (s.data.length - n))

end GoStr

namespace errs

/-- `FieldError` from `internal/errs`: one field-level validation error. -/
structure FieldError where
  field : String
  error : String
deriving DecidableEq, Repr

/-- `ActionType` from `internal/errs` (string enum; only `redirect` is defined). -/
inductive ActionType
  | redirect
deriving DecidableEq, Repr

/-- `Action` from `internal/errs`: optional client instruction. -/
structure Action where
  type : ActionType
  message : String
  value : String
deriving DecidableEq, Repr

/-- `HTTPError` from `internal/errs`: the application error carried to the
client, with machine code, human message, HTTP status, override flag,
field errors and optional action hint. -/
structure HTTPError where
  code : String
  message : String
  status : Nat
  override : Bool
  errors : List FieldError
  action : Option Action
deriving DecidableEq, Repr

/-- `MakeUpperCaseWithUnderscores` from `internal/errs`. -/
def MakeUpperCaseWithUnderscores (str : String) : String :=
  GoStr.goToUpper (GoStr.goReplaceAll str " " "_")

/-- Go `net/http.StatusText` (external standard library collaborator),
restricted to the statuses used by the modelled constructors. -/
def StatusText (code : Nat) : String :=
  if code = 400 then "Bad Request"
  else if code = 401 then "Unauthorized"
  else if code = 403 then "Forbidden"
  else if code = 404 then "Not Found"
  else if code = 500 then "Internal Server Error"
  else ""

/-- `NewBadRequestError` from `internal/errs`. -/
def NewBadRequestError (message : String) (override : Bool) (code : Option String)
    (errors : List FieldError) (action : Option Action) : HTTPError :=
  let formattedCode := MakeUpperCaseWithUnderscores (StatusText 400)
  let formattedCode := match code with
    | some c => c
    | none => formattedCode
  { code := formattedCode, message := message, status := 400,
    override := override, errors := errors, action := action }

/-- `NewNotFoundError` from `internal/errs` (the unset Go fields `Errors`
and `Action` are their zero values, nil). -/
def NewNotFoundError (message : String) (override : Bool) (code : Option String) : HTTPError :=
  let formattedCode := MakeUpperCaseWithUnderscores (StatusText 404)
  let formattedCode := match code with
    | some c => c
    | none => formattedCode
  { code := formattedCode, message := message, status := 404,
    override := override, errors := [], action := none }

/-- `NewInternalServerError` from `internal/errs`: fixed generic 500. -/
def NewInternalServerError : HTTPError :=
  { code := MakeUpperCaseWithUnderscores (StatusText 500),
    message := StatusText 500, status := 500,
    override := false, errors := [], action := none }

end errs

namespace sqlerr

/-- Modelled from the spec: the violation-kind enum of `internal/sqlerr`
(`sqlerr.Code`).  Its defining file is not under the provided sources —
only `handler.go` is — and the spec enumerates the kinds as
foreign-key, unique, not-null, check, other. -/
inductive Code
  | ForeignKeyViolation
  | UniqueViolation
  | NotNullViolation
  | CheckViolation
  | Other
deriving DecidableEq, Repr

/-- `pgconn.PgError` (external Postgres driver type, jackc/pgx): the raw
structured server error with SQLSTATE code and the metadata fields read
by `ConvertPgError`. -/
structure PgError where
  severity : String
  code : String
  message : String
  schemaName : String
  tableName : String
  columnName : String
  dataTypeName : String
  constraintName : String
deriving DecidableEq, Repr

/-- Modelled from the spec: `sqlerr.MapCode`, whose defining file is not
under the provided sources.  The spec says the violation code is mapped to
one of the five kinds "using the database's standard error-code taxonomy";
for Postgres that taxonomy is SQLSTATE class 23: 23503 foreign-key, 23505
unique, 23502 not-null, 23514 check, anything else Other. -/
def MapCode (sqlstate : String) : Code :=
  if sqlstate = "23503" then Code.ForeignKeyViolation
  else if sqlstate = "23505" then Code.UniqueViolation
  else if sqlstate = "23502" then Code.NotNullViolation
  else if sqlstate = "23514" then Code.CheckViolation
  else Code.Other

/-- Modelled from the spec: the `sqlerr.Error` struct (the Classified
Database Error), whose defining file is not under the provided sources but
whose fields are fixed by `ConvertPgError` in `handler.go` and by the
spec's data model: violation kind, severity, raw driver code, and the
affected schema/table/column/constraint names.  `MapSeverity` is likewise
missing and the severity is read by no classifier branch, so it is kept as
the raw driver severity string. -/
structure Error where
  code : Code
  severity : String
  databaseCode : String
  message : String
  schemaName : String
  tableName : String
  columnName : String
  dataTypeName : String
  constraintName : String
deriving DecidableEq, Repr

/-- `ConvertPgError` from `handler.go`: copy the driver fields and map the
SQLSTATE into the kind enum.  (The original also stores the driver error
for `Unwrap`; that back-pointer is not needed by any classifier branch.) -/
def ConvertPgError (src : PgError) : Error :=
  { code := MapCode src.code
    severity := src.severity
    databaseCode := src.code
    message := src.message
    schemaName := src.schemaName
    tableName := src.tableName
    columnName := src.columnName
    dataTypeName := src.dataTypeName
    constraintName := src.constraintName }

/-- `generateErrorCode` from `handler.go`: DOMAIN_ACTION machine code,
with the domain the uppercased table name crudely singularized by dropping
one trailing "S" (defaulting to RECORD for an unknown table). -/
def generateErrorCode (tableName : String) (errType : Code) : String :=
  let tableName := if tableName = "" then "RECORD" else tableName
  let domain := GoStr.goToUpper tableName
  let domain :=
    if GoStr.goEndsWith domain "S" && domain.data.length > 1 then
      GoStr.goDropLast1 domain
    else domain
  let action :=
    match errType with
    | Code.ForeignKeyViolation => "NOT_FOUND"
    | Code.UniqueViolation => "ALREADY_EXISTS"
    | Code.NotNullViolation => "REQUIRED"
    | Code.CheckViolation => "INVALID"
    | Code.Other => "ERROR"
  domain ++ "_" ++ action

/-- One word of `x/text` `cases.Title(language.English)`: first character
title-cased, the remaining characters lowercased (ASCII inputs). -/
def titleWord (w : String) : String :=
  match w.data with
  | [] => ""
  | c :: cs => String.mk (c.toUpper :: cs.map Char.toLower)

/-- `humanizeText` from `handler.go`: replace underscores with spaces, then
Title Case each space-separated word via `cases.Title(language.English)`. -/
def humanizeText (text : String) : String :=
  if text = "" then ""
  else GoStr.goJoin " " ((GoStr.goSplitOn (GoStr.goReplaceAll text "_" " ") " ").map titleWord)

/-- `getEntityName` from `handler.go`: prefer a column ending in `_id`
(strip the suffix and humanize), else the table name singularized by
dropping one trailing "s", else "record". -/
def getEntityName (tableName columnName : String) : String :=
  if columnName ≠ "" && GoStr.goEndsWith (GoStr.goToLower columnName) "_id" then
    humanizeText (GoStr.goDropRight (GoStr.goToLower columnName) 3)
  else if tableName ≠ "" then
    let entity :=
      if GoStr.goEndsWith tableName "s" && tableName.data.length > 1 then
        GoStr.goDropLast1 tableName
      else tableName
    humanizeText entity
  else "record"

/-- `formatUserFriendlyMessage` from `handler.go`: the per-kind end-user
message template. -/
def formatUserFriendlyMessage (sqlErr : Error) : String :=
  let entityName := getEntityName sqlErr.tableName sqlErr.columnName
  match sqlErr.code with
  | Code.ForeignKeyViolation =>
    "The referenced " ++ entityName ++ " does not exist"
  | Code.UniqueViolation =>
    "A " ++ entityName ++ " with this identifier already exists"
  | Code.NotNullViolation =>
    let fieldName := humanizeText sqlErr.columnName
    let fieldName := if fieldName = "" then "field" else fieldName
    "The " ++ fieldName ++ " is required"
  | Code.CheckViolation =>
    let fieldName := humanizeText sqlErr.columnName
    if fieldName ≠ "" then
      "The " ++ fieldName ++ " value does not meet required conditions"
    else
      "One or more values do not meet required conditions"
  | Code.Other =>
    "An error occurred while processing your request"

/-- `extractColumnForUniqueViolation` from `handler.go`.  Convention 1 is
the literal code: on prefix `unique_` with at least three `_`-separated
parts, return the last part.  Convention 2 is the anchored regular
expression match against the pattern underscore, then one or more
non-underscore characters captured, then underscore, then `key` or `ukey`,
then end of string: equivalently, the `_`-split has at least three parts,
the last part is exactly `key` or `ukey`, and the part before it is
non-empty (the leading underscore of the match is the separator before
that part, hence the three-part minimum). -/
def extractColumnForUniqueViolation (constraintName : String) : String :=
  if constraintName = "" then ""
  else
    let viaConvention1 : Option String :=
      if GoStr.goStartsWith constraintName "unique_" then
        let parts := GoStr.goSplitOn constraintName "_"
        if parts.length ≥ 3 then some (parts.getD (parts.length - 1) "") else none
      else none
    match viaConvention1 with
    | some col => col
    | none =>
      let parts := GoStr.goSplitOn constraintName "_"
      let lastP := parts.getD (parts.length - 1) ""
      let captured := parts.getD (parts.length - 2) ""
      if parts.length ≥ 3 ∧ (lastP = "key" ∨ lastP = "ukey") ∧ captured ≠ "" then
        captured
      else ""

end sqlerr

/-- A Go `error` value as seen by `HandleError`: an application error, a
driver error, one of the two no-rows sentinels (`pgx.ErrNoRows`,
`sql.ErrNoRows`), a plain error, or a `fmt.Errorf`-style wrapper whose
`Error()` text is `msg` and whose `Unwrap()` is `inner`.  `errors.As` and
`errors.Is` walk this single-parent chain. -/
inductive GoError
  | httpError (e : errs.HTTPError)
  | pgError (e : sqlerr.PgError)
  | pgxNoRows
  | sqlNoRows
  | basic (msg : String)
  | wrapped (msg : String) (inner : GoError)
deriving DecidableEq, Repr

/-- `errors.As(err, &httpErr)` for target type `*errs.HTTPError`: the first
`HTTPError` in the unwrap chain, if any. -/
def findHTTPError : GoError → Option errs.HTTPError
  | GoError.httpError e => some e
  | GoError.wrapped _ inner => findHTTPError inner
  | _ => none

/-- `errors.As(err, &pgerr)` for target type `*pgconn.PgError`: the first
driver error in the unwrap chain, if any. -/
def findPgError : GoError → Option sqlerr.PgError
  | GoError.pgError e => some e
  | GoError.wrapped _ inner => findPgError inner
  | _ => none

/-- `errors.Is(err, pgx.ErrNoRows) || errors.Is(err, sql.ErrNoRows)`:
whether the unwrap chain reaches either no-rows sentinel. -/
def isNoRows : GoError → Bool
  | GoError.pgxNoRows => true
  | GoError.sqlNoRows => true
  | GoError.wrapped _ inner => isNoRows inner
  | _ => false

/-- The Go `err.Error()` text.  `pgx.ErrNoRows` is
`errors.New("no rows in result set")` and `sql.ErrNoRows` is
`errors.New("sql: no rows in result set")`; a `pgconn.PgError` formats as
severity, message and SQLSTATE. -/
def errorMessage : GoError → String
  | GoError.httpError e => e.message
  | GoError.pgError e => e.severity ++ ": " ++ e.message ++ " (SQLSTATE " ++ e.code ++ ")"
  | GoError.pgxNoRows => "no rows in result set"
  | GoError.sqlNoRows => "sql: no rows in result set"
  | GoError.basic msg => msg
  | GoError.wrapped msg _ => msg

namespace sqlerr

/-- `HandleError` from `handler.go`: the database-error classifier.
Already-classified `HTTPError`s are returned unchanged; driver errors are
switched on their mapped violation kind; no-rows sentinels become 404s,
optionally naming the entity extracted from a `table:` marker in the error
text; everything else becomes the generic 500.  The two list indexings in
the no-rows branch are guarded by the `strings.Contains` check, so the
`getD` defaults are never used. -/
def HandleError (err : GoError) : GoError :=
  if (findHTTPError err).isSome then err
  else
    match findPgError err with
    | some pgerr =>
      let sqlErr := ConvertPgError pgerr
      let errorCode := generateErrorCode sqlErr.tableName sqlErr.code
      let userMessage := formatUserFriendlyMessage sqlErr
      match sqlErr.code with
      | Code.ForeignKeyViolation =>
        GoError.httpError (errs.NewBadRequestError userMessage false (some errorCode) [] none)
      | Code.UniqueViolation =>
        let columnName := extractColumnForUniqueViolation sqlErr.constraintName
        let userMessage :=
          if columnName ≠ "" then
            GoStr.goReplaceAll userMessage "identifier" (humanizeText columnName)
          else userMessage
        GoError.httpError (errs.NewBadRequestError userMessage true (some errorCode) [] none)
      | Code.NotNullViolation =>
        let fieldErrors : List errs.FieldError :=
          [{ field := GoStr.goToLower sqlErr.columnName, error := "is required" }]
        GoError.httpError (errs.NewBadRequestError userMessage true (some errorCode) fieldErrors none)
      | Code.CheckViolation =>
        GoError.httpError (errs.NewBadRequestError userMessage true (some errorCode) [] none)
      | Code.Other =>
        GoError.httpError errs.NewInternalServerError
    | none =>
      if isNoRows err then
        let errMsg := errorMessage err
        if GoStr.goContains errMsg "table:" then
          let table :=
            (GoStr.goSplitOn ((GoStr.goSplitOn errMsg "table:").getD 1 "") ":").getD 0 ""
          let entityName := getEntityName table ""
          GoError.httpError (errs.NewNotFoundError (entityName ++ " not found") true none)
        else
          GoError.httpError (errs.NewNotFoundError "Resource not found" false none)
      else
        GoError.httpError errs.NewInternalServerError

end sqlerr

namespace validation

/-- `CustomValidationError` from `internal/validation/utils.go`: one
non-tag validation issue as a field/message pair. -/
structure CustomValidationError where
  field : String
  message : String
deriving DecidableEq, Repr

/-- One entry of `validator.ValidationErrors` (external go-playground
validator library): the field name reported by `Field()`, the failed
constraint tag `Tag()`, its parameter `Param()`, and whether the value's
reflected kind is `reflect.String` (the only kind distinction the
extraction code makes, for the min/max templates). -/
structure TagFieldError where
  field : String
  tag : String
  param : String
  kindIsString : Bool
deriving DecidableEq, Repr

/-- The non-nil error value a payload's `Validate()` can return, as the
extraction code distinguishes them: a `validator.ValidationErrors`
collection of tag violations, or a `CustomValidationErrors` collection of
field/message pairs.  (Any other dynamic type makes the type assertion in
`extractValidationError` panic; no payload in the repository returns one.) -/
inductive ValidationErrorValue
  | tagErrors (entries : List TagFieldError)
  | customErrors (entries : List CustomValidationError)
deriving DecidableEq, Repr

/-- The per-tag message template switch inside `extractValidationError`
(`internal/validation/utils.go`). -/
def tagMessage (e : TagFieldError) : String :=
  let field := GoStr.goToLower e.field
  if e.tag = "required" then "is required"
  else if e.tag = "min" then
    if e.kindIsString then "must be at least " ++ e.param ++ " characters"
    else "must be at least " ++ e.param
  else if e.tag = "max" then
    if e.kindIsString then "must not exceed " ++ e.param ++ " characters"
    else "must not exceed " ++ e.param
  else if e.tag = "oneof" then "must be one of: " ++ e.param
  else if e.tag = "email" then "must be a valid email address"
  else if e.tag = "e164" then "must be a valid phone number with country code"
  else if e.tag = "uuid" then "must be a valid UUID"
  else if e.tag = "uuidList" then "must be a comma-separated list of valid UUIDs"
  else if e.tag = "dive" then "some items are invalid"
  else if e.param ≠ "" then field ++ ": " ++ e.tag ++ ":" ++ e.param
  else field ++ ": " ++ e.tag

/-- `extractValidationError` from `internal/validation/utils.go`: normalize
either error collection into the message "Validation failed" plus one
`FieldError` per reported violation (tag entries get a lowercased field
name and the per-tag template; custom entries are copied directly).  A Go
nil slice results from zero appends, modelled as the empty list. -/
def extractValidationError : ValidationErrorValue → String × List errs.FieldError
  | ValidationErrorValue.customErrors entries =>
    ("Validation failed", entries.map fun ce => { field := ce.field, error := ce.message })
  | ValidationErrorValue.tagErrors entries =>
    ("Validation failed",
     entries.map fun e => { field := GoStr.goToLower e.field, error := tagMessage e })

/-- The message extraction on the bind-failure path of `BindAndValidate`
(utils.go line 60):
`strings.Split(strings.Split(err.Error(), ",")[1], "message=")[1]`.
Each `[1]` indexes a Go slice and panics when the split produced fewer
than two parts, i.e. when the separator is absent; `none` models that
panic. -/
def extractBindMessage (errText : String) : Option String :=
  match (GoStr.goSplitOn errText ",")[1]? with
  | none => none
  | some second => (GoStr.goSplitOn second "message=")[1]?

/-- Outcome of `c.Bind(payload)` (external echo collaborator): success, or
a bind error carrying its `Error()` text. -/
inductive BindOutcome
  | ok
  | err (msg : String)
deriving DecidableEq, Repr

/-- The value `BindAndValidate` produces: a normal nil return, a returned
`*errs.HTTPError`, or a runtime panic inside the message extraction. -/
inductive BindValidateResult
  | panicked
  | ok
  | httpErr (e : errs.HTTPError)
deriving DecidableEq, Repr

/-- `BindAndValidate` from `internal/validation/utils.go`, as a function of
the bind outcome and of the payload's `Validate()` result (`none` when
`Validate()` returns nil).  On bind failure the message is extracted by
`extractBindMessage` and a plain 400 returned; on a validation error the
field errors are extracted and a 400 with override is returned only when
the extracted slice is non-nil (`fieldErrors != nil`). -/
def BindAndValidate (bind : BindOutcome) (validateResult : Option ValidationErrorValue) :
    BindValidateResult :=
  match bind with
  | BindOutcome.err errText =>
    match extractBindMessage errText with
    | none => BindValidateResult.panicked
    | some message =>
      BindValidateResult.httpErr (errs.NewBadRequestError message false none [] none)
  | BindOutcome.ok =>
    match validateResult with
    | none => BindValidateResult.ok
    | some ve =>
      let extracted := extractValidationError ve
      if extracted.2 ≠ [] then
        BindValidateResult.httpErr (errs.NewBadRequestError extracted.1 true none extracted.2 none)
      else BindValidateResult.ok

end validation

namespace handler

/-- A Go `interface` result value as the response strategies see it: a
byte slice, some other JSON-serializable value (kept abstract as a tagged
string), or nil. -/
inductive GoValue
  | bytes (data : List Nat)
  | jsonish (s : String)
  | nullv
deriving DecidableEq, Repr

/-- A New Relic trace attribute value (string or integer). -/
inductive AttrValue
  | s (v : String)
  | n (v : Nat)
deriving DecidableEq, Repr

/-- `FileResponseHandler` from `internal/handler/handler.go`: the
file-download response strategy with its configured status, filename and
content type. -/
structure FileResponseHandler where
  status : Nat
  filename : String
  contentType : String
deriving DecidableEq, Repr

/-- The HTTP response written by `c.Blob` plus the Content-Disposition
header set beforehand. -/
structure BlobResponse where
  headers : List (String × String)
  status : Nat
  contentType : String
  body : List Nat
deriving DecidableEq, Repr

/-- `FileResponseHandler.Handle`: the type assertion `result.([]byte)` is
unchecked, so a non-byte result panics (`none`); on bytes it sets the
forced-download Content-Disposition header and writes the blob. -/
def FileResponseHandler.Handle (h : FileResponseHandler) (result : GoValue) :
    Option BlobResponse :=
  match result with
  | GoValue.bytes data =>
    some { headers := [("Content-Disposition", "attachment; filename=" ++ h.filename)],
           status := h.status, contentType := h.contentType, body := data }
  | _ => none

/-- `FileResponseHandler.AddAttributes`: when a transaction is active,
attach the filename and content type, plus the byte length when the result
is in fact a byte slice. -/
def FileResponseHandler.AddAttributes (h : FileResponseHandler) (txnActive : Bool)
    (result : GoValue) : List (String × AttrValue) :=
  if txnActive then
    [("file.name", AttrValue.s h.filename), ("file.content_type", AttrValue.s h.contentType)]
      ++ (match result with
          | GoValue.bytes data => [("file.size_bytes", AttrValue.n data.length)]
          | _ => [])
  else []

/-- The observable phases of `handleRequest`, in the order the pipeline
reaches them: the `BindAndValidate` call, the business-handler call, and
the `responseHandler.Handle` call. -/
inductive PipelineEvent
  | validation
  | handlerCall
  | respond
deriving DecidableEq, Repr

/-- The control-flow skeleton of `handleRequest` from
`internal/handler/handler.go`, with the three external calls abstracted by
their outcomes: `validationErr` is what `BindAndValidate` returns,
`handlerErr` the error component of the business handler's return, and
`respondErr` what `responseHandler.Handle` returns.  The first component
is the trace of calls actually made; the second is the value
`handleRequest` returns.  Logging and tracing writes are external effects
with no influence on control flow and are elided. -/
def handleRequest (validationErr : Option GoError) (handlerErr : Option GoError)
    (respondErr : Option GoError) : List PipelineEvent × Option GoError :=
  match validationErr with
  | some e => ([PipelineEvent.validation], some e)
  | none =>
    match handlerErr with
    | some e => ([PipelineEvent.validation, PipelineEvent.handlerCall], some e)
    | none =>
      ([PipelineEvent.validation, PipelineEvent.handlerCall, PipelineEvent.respond], respondErr)

end handler

/-- Associativity of string concatenation, used to restate machine codes
built by the classifier as single-literal suffix concatenations. -/
theorem string_append_assoc (a b c : String) : a ++ b ++ c = a ++ (b ++ c) :=
  congrArg String.mk (List.append_assoc a.data b.data c.data)

/-- C1: for every error that is not an already-classified application
error, whose driver error (if any) maps to the Other violation kind, and
that is not a no-rows sentinel, the classifier returns the fixed generic
500 — the constant output carries no text derived from the input's table,
column or constraint names. -/
theorem handleError_unrecognized_is_generic_500
    (err : GoError)
    (hHttp : findHTTPError err = none)
    (hPg : ∀ p : sqlerr.PgError, findPgError err = some p → sqlerr.MapCode p.code = sqlerr.Code.Other)
    (hNoRows : isNoRows err = false) :
    sqlerr.HandleError err = GoError.httpError errs.NewInternalServerError
    ∧ errs.NewInternalServerError
      = ⟨"INTERNAL_SERVER_ERROR", "Internal Server Error", 500, false, [], none⟩ := by
  refine ⟨?_, by decide⟩
  unfold sqlerr.HandleError
  rw [hHttp]
  cases hp : findPgError err with
  | none => simp [hNoRows]
  | some p =>
    have hc := hPg p hp
    simp [sqlerr.ConvertPgError, hc]

theorem c1_witness :
    sqlerr.HandleError (GoError.wrapped "query users failed" (GoError.basic "connection reset"))
      = GoError.httpError errs.NewInternalServerError :=
  (handleError_unrecognized_is_generic_500
    (GoError.wrapped "query users failed" (GoError.basic "connection reset"))
    rfl (fun _ hp => Option.noConfusion hp) rfl).1

/-- C2: when the input already carries an application error (directly or
through unwrapping), the classifier returns the input unchanged — same
code, status, message, override flag, field errors and action — and a
second classification changes nothing. -/
theorem handleError_idempotent_on_classified
    (err : GoError) (h : (findHTTPError err).isSome = true) :
    sqlerr.HandleError err = err
    ∧ sqlerr.HandleError (sqlerr.HandleError err) = sqlerr.HandleError err := by
  have h1 : sqlerr.HandleError err = err := by
    unfold sqlerr.HandleError
    rw [if_pos h]
  exact ⟨h1, by rw [h1, h1]⟩

theorem c2_witness :
    sqlerr.HandleError
      (GoError.wrapped "repo: find user"
        (GoError.httpError ⟨"NOT_FOUND", "User not found", 404, true, [], none⟩))
    = GoError.wrapped "repo: find user"
        (GoError.httpError ⟨"NOT_FOUND", "User not found", 404, true, [], none⟩) :=
  (handleError_idempotent_on_classified
    (GoError.wrapped "repo: find user"
      (GoError.httpError ⟨"NOT_FOUND", "User not found", 404, true, [], none⟩)) rfl).1

/-- C3 (counterexample): the claim's worked example is wrong about the
entity casing, and about the domain fallback for an empty table name.
With table `users` and constraint `unique_users_email` the code produces
the message "A User with this Email already exists" — the entity is also
humanized to Title Case — not "A user with this Email already exists";
and with an empty driver table name the machine code is
`RECORD_ALREADY_EXISTS`, not the bare singularized table name. -/
theorem handleError_unique_claimed_example_cex :
    sqlerr.HandleError
      (GoError.pgError ⟨"ERROR", "23505", "duplicate key", "public", "users", "", "", "unique_users_email"⟩)
      = GoError.httpError ⟨"USER_ALREADY_EXISTS", "A User with this Email already exists", 400, true, [], none⟩
    ∧ "A User with this Email already exists" ≠ "A user with this Email already exists"
    ∧ sqlerr.HandleError
        (GoError.pgError ⟨"ERROR", "23505", "duplicate key", "public", "", "", "", "unique_users_email"⟩)
        = GoError.httpError ⟨"RECORD_ALREADY_EXISTS", "A record with this Email already exists", 400, true, [], none⟩ := by
  refine ⟨by decide, by decide, by decide⟩

/-- C3 (amended): for every unique-violation driver error whose constraint
name matches one of the recognized conventions, the classifier returns a
400 with override set, whose message is the unique-violation template (the
entity humanized by `getEntityName`) with the word "identifier" replaced
by the humanized extracted column name, and whose machine code is the
uppercased, crudely singularized table name (RECORD when the driver
reports no table) concatenated with "_ALREADY_EXISTS". -/
theorem handleError_unique_recognized_constraint
    (e : sqlerr.PgError)
    (hCode : sqlerr.MapCode e.code = sqlerr.Code.UniqueViolation)
    (hCol : sqlerr.extractColumnForUniqueViolation e.constraintName ≠ "") :
    sqlerr.HandleError (GoError.pgError e)
      = GoError.httpError
          ⟨(let t := if e.tableName = "" then "RECORD" else e.tableName
            let domain := GoStr.goToUpper t
            (if GoStr.goEndsWith domain "S" && domain.data.length > 1 then
              GoStr.goDropLast1 domain
            else domain) ++ "_ALREADY_EXISTS"),
           GoStr.goReplaceAll
             ("A " ++ sqlerr.getEntityName e.tableName e.columnName
               ++ " with this identifier already exists")
             "identifier"
             (sqlerr.humanizeText (sqlerr.extractColumnForUniqueViolation e.constraintName)),
           400, true, [], none⟩ := by
  unfold sqlerr.HandleError
  simp only [findHTTPError, Option.isSome_none, Bool.false_eq_true, if_false, findPgError]
  simp only [sqlerr.ConvertPgError, hCode, sqlerr.generateErrorCode,
    sqlerr.formatUserFriendlyMessage]
  rw [if_pos hCol]
  simp only [string_append_assoc]
  rfl

theorem c3_witness :
    sqlerr.HandleError
      (GoError.pgError ⟨"ERROR", "23505", "duplicate key", "public", "users", "", "", "users_email_key"⟩)
      = GoError.httpError ⟨"USER_ALREADY_EXISTS", "A User with this Email already exists", 400, true, [], none⟩ := by
  rw [handleError_unique_recognized_constraint
    ⟨"ERROR", "23505", "duplicate key", "public", "users", "", "", "users_email_key"⟩
    (by decide) (by decide)]
  decide

/-- C4: for every not-null-violation driver error the classifier returns a
400 with override set whose field-error list is exactly one entry keyed on
the lowercased column name with text "is required", and whose message is
"The F is required" with F the humanized column name, falling back to the
word "field" when the column name is empty. -/
theorem handleError_notnull_field_error
    (e : sqlerr.PgError)
    (hCode : sqlerr.MapCode e.code = sqlerr.Code.NotNullViolation) :
    sqlerr.HandleError (GoError.pgError e)
      = GoError.httpError
          ⟨sqlerr.generateErrorCode e.tableName sqlerr.Code.NotNullViolation,
           "The "
             ++ (if sqlerr.humanizeText e.columnName = "" then "field"
                else sqlerr.humanizeText e.columnName)
             ++ " is required",
           400, true,
           [⟨GoStr.goToLower e.columnName, "is required"⟩], none⟩ := by
  unfold sqlerr.HandleError
  simp only [findHTTPError, Option.isSome_none, Bool.false_eq_true, if_false, findPgError]
  simp only [sqlerr.ConvertPgError, hCode, sqlerr.formatUserFriendlyMessage]
  rfl

theorem c4_witness :
    sqlerr.HandleError
      (GoError.pgError ⟨"ERROR", "23502", "null value in column", "public", "users", "email_address", "", ""⟩)
      = GoError.httpError ⟨"USER_REQUIRED", "The Email Address is required", 400, true,
          [⟨"email_address", "is required"⟩], none⟩ := by
  rw [handleError_notnull_field_error
    ⟨"ERROR", "23502", "null value in column", "public", "users", "email_address", "", ""⟩
    (by decide)]
  decide

open handler in
/-- C5: in the generic request pipeline, validation is always the first
call made; on validation failure the business handler is called zero times
and the validation error is returned; on handler failure the response
writer is never called and the handler error is returned; the response
writer runs exactly when validation and the handler both succeeded. -/
theorem handleRequest_ordering (v he re : Option GoError) :
    ((handleRequest v he re).1.head? = some PipelineEvent.validation)
    ∧ (∀ e, v = some e →
        (handleRequest v he re).1.count PipelineEvent.handlerCall = 0
        ∧ (handleRequest v he re).2 = some e)
    ∧ (∀ e, v = none → he = some e →
        PipelineEvent.respond ∉ (handleRequest v he re).1
        ∧ (handleRequest v he re).2 = some e)
    ∧ (PipelineEvent.respond ∈ (handleRequest v he re).1 ↔ (v = none ∧ he = none))
    ∧ (PipelineEvent.handlerCall ∈ (handleRequest v he re).1 →
        (handleRequest v he re).1.take 2 = [PipelineEvent.validation, PipelineEvent.handlerCall]) := by
  cases v <;> cases he <;> simp [handleRequest, List.count_cons, List.count_nil]

open handler in
theorem handleRequest_ordering_witness :
    (handleRequest (some (GoError.basic "invalid payload")) none none).1.count
        PipelineEvent.handlerCall = 0
    ∧ (handleRequest none (some (GoError.basic "db down")) none).2
        = some (GoError.basic "db down")
    ∧ PipelineEvent.respond ∈ (handleRequest none none none).1 :=
  ⟨((handleRequest_ordering (some (GoError.basic "invalid payload")) none none).2.1 _ rfl).1,
   ((handleRequest_ordering none (some (GoError.basic "db down")) none).2.2.1 _ rfl rfl).2,
   (handleRequest_ordering none none none).2.2.2.1.mpr ⟨rfl, rfl⟩⟩

/-- C6: for every error reaching the no-rows branch (no application error
and no driver error in the chain, and one of the two no-rows sentinels
present), the classifier returns a 404: when the error text contains the
marker "table:" the message names the entity extracted from the table
token (singularized and humanized) followed by " not found" with the
override flag set, otherwise the generic "Resource not found" without it. -/
theorem handleError_noRows_notFound
    (err : GoError)
    (hHttp : findHTTPError err = none)
    (hPg : findPgError err = none)
    (hNR : isNoRows err = true) :
    sqlerr.HandleError err
      = GoError.httpError
          (if GoStr.goContains (errorMessage err) "table:" then
            ⟨"NOT_FOUND",
             sqlerr.getEntityName
               ((GoStr.goSplitOn ((GoStr.goSplitOn (errorMessage err) "table:").getD 1 "") ":").getD 0 "")
               "" ++ " not found",
             404, true, [], none⟩
          else ⟨"NOT_FOUND", "Resource not found", 404, false, [], none⟩) := by
  unfold sqlerr.HandleError
  rw [hHttp, hPg]
  simp only [Option.isSome_none, Bool.false_eq_true, if_false, hNR, if_true]
  cases hc : GoStr.goContains (errorMessage err) "table:" <;> simp [hc] <;> rfl

theorem c6_witness :
    sqlerr.HandleError (GoError.wrapped "scan failed table:users: id=42" GoError.pgxNoRows)
      = GoError.httpError ⟨"NOT_FOUND", "User not found", 404, true, [], none⟩
    ∧ sqlerr.HandleError GoError.sqlNoRows
      = GoError.httpError ⟨"NOT_FOUND", "Resource not found", 404, false, [], none⟩ := by
  constructor
  · rw [handleError_noRows_notFound
      (GoError.wrapped "scan failed table:users: id=42" GoError.pgxNoRows) rfl rfl rfl]
    decide
  · rw [handleError_noRows_notFound GoError.sqlNoRows rfl rfl rfl]
    decide

open validation in
/-- C7 (counterexample): a payload whose `Validate()` returns a non-nil
`CustomValidationErrors` with zero entries does not make `BindAndValidate`
return a 400 application error — the call returns nil. -/
theorem bindAndValidate_empty_custom_cex :
    BindAndValidate BindOutcome.ok (some (ValidationErrorValue.customErrors []))
      = BindValidateResult.ok := by decide

open validation in
/-- C7 (amended): for every payload whose `Validate()` reports at least one
violation (non-empty extracted field-error list), `BindAndValidate`
returns a 400 application error with the override flag and one field error
per reported violation — tag violations are keyed on the lowercased field
name with the fixed per-tag message template, custom violations are copied
as given; a non-nil validation error carrying zero violations is treated
as success instead. -/
theorem bindAndValidate_validation_failure
    (ve : ValidationErrorValue)
    (h : (extractValidationError ve).2 ≠ []) :
    BindAndValidate BindOutcome.ok (some ve)
      = BindValidateResult.httpErr
          ⟨"BAD_REQUEST", "Validation failed", 400, true, (extractValidationError ve).2, none⟩
    ∧ (extractValidationError ve).2
      = (match ve with
         | ValidationErrorValue.tagErrors entries =>
           entries.map fun e => ⟨GoStr.goToLower e.field, tagMessage e⟩
         | ValidationErrorValue.customErrors entries =>
           entries.map fun ce => ⟨ce.field, ce.message⟩) := by
  refine ⟨?_, by cases ve <;> rfl⟩
  have hred : BindAndValidate BindOutcome.ok (some ve)
      = if (extractValidationError ve).2 ≠ [] then
          BindValidateResult.httpErr
            (errs.NewBadRequestError (extractValidationError ve).1 true none
              (extractValidationError ve).2 none)
        else BindValidateResult.ok := rfl
  rw [hred, if_pos h]
  cases ve <;> rfl

open validation in
theorem c7_witness :
    BindAndValidate BindOutcome.ok
      (some (ValidationErrorValue.tagErrors
        [⟨"Email", "required", "", true⟩, ⟨"Password", "min", "8", true⟩]))
      = BindValidateResult.httpErr
          ⟨"BAD_REQUEST", "Validation failed", 400, true,
           [⟨"email", "is required"⟩, ⟨"password", "must be at least 8 characters"⟩], none⟩ := by
  rw [(bindAndValidate_validation_failure
    (ValidationErrorValue.tagErrors
      [⟨"Email", "required", "", true⟩, ⟨"Password", "min", "8", true⟩])
    (by decide)).1]
  decide

open validation in
/-- C8 (counterexample): binding failures whose error text lacks the ","
marker, or whose post-comma segment lacks the "message=" marker, do not
produce a 400 application error: the extraction indexes a one-element
split result out of range and panics. -/
theorem bindAndValidate_bind_panic_cex :
    BindAndValidate (BindOutcome.err "unexpected EOF") none
      = BindValidateResult.panicked
    ∧ BindAndValidate (BindOutcome.err "code=400, malformed body") none
      = BindValidateResult.panicked := by
  exact ⟨by decide, by decide⟩

open validation in
/-- C8 (amended): for every binding failure whose error text the best-effort
extraction can parse (a "," is present and the segment after the first ","
contains "message="), `BindAndValidate` returns a 400 application error
carrying the extracted message; on any other text the extraction panics
with an index-out-of-range instead of returning an error. -/
theorem bindAndValidate_bind_failure
    (msg m : String) (v : Option ValidationErrorValue)
    (h : extractBindMessage msg = some m) :
    BindAndValidate (BindOutcome.err msg) v
      = BindValidateResult.httpErr ⟨"BAD_REQUEST", m, 400, false, [], none⟩ := by
  have hred : BindAndValidate (BindOutcome.err msg) v
      = match extractBindMessage msg with
        | none => BindValidateResult.panicked
        | some message =>
          BindValidateResult.httpErr (errs.NewBadRequestError message false none [] none) := rfl
  rw [hred, h]
  rfl

open validation in
theorem c8_witness :
    BindAndValidate (BindOutcome.err "code=400, message=unexpected end of JSON input") none
      = BindValidateResult.httpErr
          ⟨"BAD_REQUEST", "unexpected end of JSON input", 400, false, [], none⟩ :=
  bindAndValidate_bind_failure "code=400, message=unexpected end of JSON input"
    "unexpected end of JSON input" none (by decide)

open handler in
/-- C9: the file response strategy writes, for a byte-sequence result, the
bytes with the configured status and content type under a forced-download
Content-Disposition header naming the configured filename, and attaches
filename, content type and byte length as trace attributes; for any result
that is not a byte sequence, `Handle` panics (a programming error, not a
recoverable return). -/
theorem fileResponseHandler_contract (h : FileResponseHandler) (result : GoValue) :
    (∀ data, result = GoValue.bytes data →
      h.Handle result
        = some ⟨[("Content-Disposition", "attachment; filename=" ++ h.filename)],
                h.status, h.contentType, data⟩
      ∧ h.AddAttributes true result
        = [("file.name", AttrValue.s h.filename),
           ("file.content_type", AttrValue.s h.contentType),
           ("file.size_bytes", AttrValue.n data.length)])
    ∧ ((∀ data, result ≠ GoValue.bytes data) → h.Handle result = none) := by
  cases result <;>
    simp [FileResponseHandler.Handle, FileResponseHandler.AddAttributes]

open handler in
theorem c9_witness :
    FileResponseHandler.Handle ⟨200, "report.pdf", "application/pdf"⟩ (GoValue.bytes [1, 2, 3])
      = some ⟨[("Content-Disposition", "attachment; filename=report.pdf")],
              200, "application/pdf", [1, 2, 3]⟩
    ∧ FileResponseHandler.AddAttributes ⟨200, "report.pdf", "application/pdf"⟩ true
        (GoValue.bytes [1, 2, 3])
      = [("file.name", AttrValue.s "report.pdf"),
         ("file.content_type", AttrValue.s "application/pdf"),
         ("file.size_bytes", AttrValue.n 3)]
    ∧ FileResponseHandler.Handle ⟨200, "report.pdf", "application/pdf"⟩ GoValue.nullv = none := by
  refine ⟨?_, ?_, ?_⟩
  · exact ((fileResponseHandler_contract ⟨200, "report.pdf", "application/pdf"⟩
      (GoValue.bytes [1, 2, 3])).1 [1, 2, 3] rfl).1
  · exact ((fileResponseHandler_contract ⟨200, "report.pdf", "application/pdf"⟩
      (GoValue.bytes [1, 2, 3])).1 [1, 2, 3] rfl).2
  · exact (fileResponseHandler_contract ⟨200, "report.pdf", "application/pdf"⟩
      GoValue.nullv).2 (fun _ h => GoValue.noConfusion h)

open validation in
/-- C10: a non-nil `CustomValidationErrors` value with zero entries makes
`extractValidationError` produce an empty field-error list, and
`BindAndValidate` — which only errors when that list is non-empty —
therefore returns nil: the validation failure is silently treated as
success. -/
theorem bindAndValidate_empty_custom_silent_success :
    BindAndValidate BindOutcome.ok (some (ValidationErrorValue.customErrors []))
      = BindValidateResult.ok
    ∧ extractValidationError (ValidationErrorValue.customErrors [])
      = ("Validation failed", []) := by
  exact ⟨by decide, by decide⟩
